import Mathlib

/-!
Verification of the two Solana programs in this repository against their
specification:

* `src/rust_prog_struc/counter_program/src/lib.rs` — the stateful counter
  program (Borsh-encoded `CounterInstruction`, a `CounterAccount` record with
  a single `u64` count, an ownership-gated increment with checked addition).
* `src/byte-calculator/src/lib.rs` — the stateless byte calculator
  (3-byte payload `[opcode, left, right]`, six fixed operations over `i64`).

Machine integers are modelled as `Nat`/`Int`; a `u8` byte is a `Nat` that the
theorems constrain to be below 256 where it matters, and the `u64` counter
value is a `Nat` constrained below `2 ^ 64`.

The spec names its errors abstractly; they correspond to the
`solana_program::ProgramError` variants the code actually returns:
`InvalidInstruction` ↦ `InvalidInstructionData`, `IncorrectOwner` ↦
`IncorrectProgramId`, `ArithmeticOverflow` ↦ `InvalidAccountData`,
`NotEnoughAccounts` ↦ `NotEnoughAccountKeys`, and the calculator errors
`DivisionByZero`/`ModulusByZero`/`NegativeExponent`/`UnknownOperation` all
↦ `InvalidInstructionData`.
-/

/-- The `solana_program::program_error::ProgramError` variants this code uses.
`BorshIoError` is the conversion target of a failed Borsh (de)serialization
behind the `?` operator. -/
inductive ProgramError where
  | InvalidInstructionData
  | IncorrectProgramId
  | InvalidAccountData
  | NotEnoughAccountKeys
  | BorshIoError
deriving DecidableEq, Repr

/-! ## Byte calculator (`src/byte-calculator/src/lib.rs`) -/

/-- Interpretation of an operand byte by `instruction_data[i] as i64`
(lines 19–20 of the calculator source). A `u8`-to-`i64` cast in Rust
zero-extends, so the resulting `i64` value equals the unsigned byte value. -/
def operandValue (b : Nat) : Int := (b : Int)

/-- Shallow embedding of the calculator's `process_instruction`
(`src/byte-calculator/src/lib.rs`). The Rust function only logs its result
and returns `Ok(())`; here the `Ok` payload carries what the final
`msg!("Result = {}", result)` line would report (`none` on the short-payload
path, which logs a notice and returns `Ok(())` without computing).
Division uses Rust `i64` `/` (truncation toward zero, `Int.tdiv`) and `%`
(remainder with the dividend's sign, `Int.tmod`); `left.pow(right as u32)`
truncates the exponent to 32 bits, hence `r % 2 ^ 32`. The mathematical
value of each operation is recorded without wrapping into 64 bits, so that
theorems can state exactly when the `i64` computation would overflow. -/
def calcProcessInstruction : List Nat → Except ProgramError (Option Int)
  | operation :: l :: r :: _ =>
    let left : Int := operandValue l
    let right : Int := operandValue r
    match operation with
    | 0 => .ok (some (left + right))
    | 1 => .ok (some (left - right))
    | 2 => .ok (some (left * right))
    | 3 =>
      if right ≠ 0 then .ok (some (left.tdiv right))
      else .error .InvalidInstructionData
    | 4 =>
      if right ≠ 0 then .ok (some (left.tmod right))
      else .error .InvalidInstructionData
    | 5 =>
      if 0 ≤ right then .ok (some (left ^ (r % 2 ^ 32)))
      else .error .InvalidInstructionData
    | _ => .error .InvalidInstructionData
  | _ => .ok none

/-- Smallest value of Rust's `i64`. -/
def I64_MIN : Int := -(2 ^ 63)

/-- Largest value of Rust's `i64`. -/
def I64_MAX : Int := 2 ^ 63 - 1

/-! ## Counter program (`src/rust_prog_struc/counter_program/src/lib.rs`) -/

/-- Largest value of Rust's `u64`; `checked_add(1)` returns `None` exactly
at this value. -/
def U64_MAX : Nat := 2 ^ 64 - 1

/-- Little-endian 8-byte encoding of a `u64`, as Borsh serializes the
`count` field of `CounterAccount`. -/
def encodeU64LE (n : Nat) : List Nat :=
  [n % 256, n / 256 % 256, n / 256 ^ 2 % 256, n / 256 ^ 3 % 256,
   n / 256 ^ 4 % 256, n / 256 ^ 5 % 256, n / 256 ^ 6 % 256, n / 256 ^ 7 % 256]

/-- Value of an 8-byte little-endian buffer; 0 on any other length (callers
check the length first). -/
def decodeU64LE : List Nat → Nat
  | [b0, b1, b2, b3, b4, b5, b6, b7] =>
      b0 + 256 * b1 + 256 ^ 2 * b2 + 256 ^ 3 * b3 +
      256 ^ 4 * b4 + 256 ^ 5 * b5 + 256 ^ 6 * b6 + 256 ^ 7 * b7
  | _ => 0

/-- The persisted counter record (`struct CounterAccount { count: u64 }`). -/
structure CounterAccount where
  count : Nat
deriving DecidableEq, Repr

/-- Borsh serialization of `CounterAccount`: exactly the 8-byte little-endian
encoding of `count`. -/
def CounterAccount.serialize (c : CounterAccount) : List Nat :=
  encodeU64LE c.count

/-- Embedding of `CounterAccount::try_from_slice`: Borsh reads 8 bytes for the
`u64` and `try_from_slice` additionally demands the whole buffer be consumed,
so exactly 8 bytes succeed. -/
def CounterAccount.try_from_slice (bytes : List Nat) : Option CounterAccount :=
  if bytes.length = 8 then some ⟨decodeU64LE bytes⟩ else none

/-- The instruction sum type of the counter program. -/
inductive CounterInstruction where
  | InitializeCounter (initial_value : Nat)
  | IncrementCounter
deriving DecidableEq, Repr

/-- Embedding of `CounterInstruction::try_from_slice`: Borsh encodes the
variant index as one byte (`0` = `InitializeCounter`, then an 8-byte
little-endian `u64`; `1` = `IncrementCounter`, no payload); an unknown tag,
a truncated payload, or leftover bytes after the variant all fail. -/
def CounterInstruction.try_from_slice (bytes : List Nat) : Option CounterInstruction :=
  match bytes with
  | [] => none
  | tag :: rest =>
    if tag = 0 then
      if rest.length = 8 then some (.InitializeCounter (decodeU64LE rest)) else none
    else if tag = 1 then
      if rest.isEmpty then some .IncrementCounter else none
    else none

/-- An account as the handlers see it: its owning program id and its raw
data bytes. Pubkeys are abstracted to `Nat` (only equality is used). -/
structure Account where
  owner : Nat
  data : List Nat
deriving DecidableEq, Repr

/-- Embedding of `process_increment_counter`. Returns the `ProgramResult`
together with the account list after the call (the Rust code mutates the
first account's data in place, and only on the all-checks-passed path).
The order of checks follows the source: `next_account_info` (fails with
`NotEnoughAccountKeys` on an empty list), the `counter_account.owner !=
program_id` gate (`IncorrectProgramId`), Borsh decode of the stored bytes
(`BorshIoError` via `?`), `checked_add(1)` (`InvalidAccountData` via
`ok_or`), then serialize-in-place. -/
def process_increment_counter (program_id : Nat) (accounts : List Account) :
    Except ProgramError Unit × List Account :=
  match accounts with
  | [] => (.error .NotEnoughAccountKeys, accounts)
  | counter_account :: rest =>
    if counter_account.owner ≠ program_id then
      (.error .IncorrectProgramId, counter_account :: rest)
    else
      match CounterAccount.try_from_slice counter_account.data with
      | none => (.error .BorshIoError, counter_account :: rest)
      | some counter_data =>
        if counter_data.count = U64_MAX then
          (.error .InvalidAccountData, counter_account :: rest)
        else
          (.ok (),
           { counter_account with
               data := CounterAccount.serialize ⟨counter_data.count + 1⟩ } :: rest)

/-- Embedding of `process_initialize_counter`. The three `next_account_info`
calls fail with `NotEnoughAccountKeys` unless at least three accounts are
present; then a single `create_account` CPI is issued (its outcome is the
environment-supplied `invokeResult`; the returned `Bool` records whether the
CPI was issued at all), and on success the counter account is owned by the
program with the Borsh-serialized initial value as data. -/
def process_initialize_counter (program_id : Nat) (accounts : List Account)
    (initial_value : Nat) (invokeResult : Except ProgramError Unit) :
    Except ProgramError Unit × List Account × Bool :=
  match accounts with
  | counter_account :: payer_account :: system_program :: rest =>
    match invokeResult with
    | .error e => (.error e, counter_account :: payer_account :: system_program :: rest, true)
    | .ok _ =>
      (.ok (),
       { owner := program_id,
         data := CounterAccount.serialize ⟨initial_value⟩ }
         :: payer_account :: system_program :: rest, true)
  | _ => (.error .NotEnoughAccountKeys, accounts, false)

/-- Embedding of the counter program's `process_instruction`: Borsh-decode the
instruction (a failure maps to `InvalidInstructionData`), then route to the
handler. The `Bool` records whether a `create_account` CPI was issued. -/
def counter_process_instruction (program_id : Nat) (accounts : List Account)
    (instruction_data : List Nat) (invokeResult : Except ProgramError Unit) :
    Except ProgramError Unit × List Account × Bool :=
  match CounterInstruction.try_from_slice instruction_data with
  | none => (.error .InvalidInstructionData, accounts, false)
  | some (.InitializeCounter initial_value) =>
      process_initialize_counter program_id accounts initial_value invokeResult
  | some .IncrementCounter =>
      let out := process_increment_counter program_id accounts
      (out.1, out.2, false)

/-! ## Helper lemmas -/

/-- Little-endian round trip for values below `2 ^ 64`. -/
theorem decodeU64LE_encodeU64LE (n : Nat) (h : n < 2 ^ 64) :
    decodeU64LE (encodeU64LE n) = n := by
  simp only [encodeU64LE, decodeU64LE]
  omega

/-- The encoding always has length 8. -/
theorem encodeU64LE_length (n : Nat) : (encodeU64LE n).length = 8 := rfl

/-- Equality of `Except` values is decidable when it is on both components;
used to evaluate the embedding at concrete inputs. -/
instance {ε α : Type} [DecidableEq ε] [DecidableEq α] : DecidableEq (Except ε α) := fun x y =>
  match x, y with
  | .ok a, .ok b =>
    if h : a = b then .isTrue (by rw [h]) else .isFalse (fun hc => h (Except.ok.inj hc))
  | .error a, .error b =>
    if h : a = b then .isTrue (by rw [h]) else .isFalse (fun hc => h (Except.error.inj hc))
  | .ok _, .error _ => .isFalse (fun hc => Except.noConfusion hc)
  | .error _, .ok _ => .isFalse (fun hc => Except.noConfusion hc)

/-! ## Claim theorems -/

/-- C2: for every `u64` value `count`, decoding the 8-byte Borsh encoding of a
counter record with that count yields the same record. -/
theorem counter_roundtrip (count : Nat) (h : count < 2 ^ 64) :
    CounterAccount.try_from_slice (CounterAccount.serialize ⟨count⟩) = some ⟨count⟩ := by
  simp [CounterAccount.try_from_slice, CounterAccount.serialize, encodeU64LE_length,
    decodeU64LE_encodeU64LE _ h]

theorem counter_roundtrip_witness :
    42 < 2 ^ 64 ∧
    CounterAccount.try_from_slice (CounterAccount.serialize ⟨42⟩) = some ⟨42⟩ :=
  ⟨by decide, counter_roundtrip 42 (by decide)⟩

/-- C1: on a present record owned by the program, `Increment` succeeds and
stores `count + 1` when `count < U64_MAX`; at `count = U64_MAX` the
`checked_add` fails (the spec's `ArithmeticOverflow`, the code's
`InvalidAccountData`) and the stored bytes are unchanged. -/
theorem increment_monotonicity (program_id count : Nat) (rest : List Account)
    (hcount : count ≤ U64_MAX) :
    (count < U64_MAX →
      process_increment_counter program_id
          (⟨program_id, encodeU64LE count⟩ :: rest)
        = (.ok (), ⟨program_id, encodeU64LE (count + 1)⟩ :: rest))
  ∧ (count = U64_MAX →
      process_increment_counter program_id
          (⟨program_id, encodeU64LE count⟩ :: rest)
        = (.error .InvalidAccountData, ⟨program_id, encodeU64LE count⟩ :: rest)) := by
  have h64 : count < 2 ^ 64 := by
    have : U64_MAX = 2 ^ 64 - 1 := rfl
    omega
  constructor
  · intro hlt
    simp [process_increment_counter, CounterAccount.try_from_slice, encodeU64LE_length,
      decodeU64LE_encodeU64LE _ h64, CounterAccount.serialize, hlt.ne]
  · intro heq
    subst heq
    simp [process_increment_counter, CounterAccount.try_from_slice, encodeU64LE_length,
      decodeU64LE_encodeU64LE _ h64]

theorem increment_monotonicity_witness :
    U64_MAX ≤ U64_MAX ∧
    process_increment_counter 7 [⟨7, encodeU64LE U64_MAX⟩]
      = (.error .InvalidAccountData, [⟨7, encodeU64LE U64_MAX⟩]) :=
  ⟨le_refl _, (increment_monotonicity 7 U64_MAX [] (le_refl _)).2 rfl⟩

/-- C3: when the target account's owner differs from the program id,
`Increment` fails with the ownership error (the spec's `IncorrectOwner`, the
code's `IncorrectProgramId`) and the account list is returned unchanged: no
write happens. -/
theorem increment_owner_gate (program_id : Nat) (acct : Account) (rest : List Account)
    (h : acct.owner ≠ program_id) :
    process_increment_counter program_id (acct :: rest)
      = (.error .IncorrectProgramId, acct :: rest) := by
  simp [process_increment_counter, h]

theorem increment_owner_gate_witness :
    (Account.mk 2 [0, 0, 0, 0, 0, 0, 0, 0]).owner ≠ 1 ∧
    process_increment_counter 1 [⟨2, [0, 0, 0, 0, 0, 0, 0, 0]⟩]
      = (.error .IncorrectProgramId, [⟨2, [0, 0, 0, 0, 0, 0, 0, 0]⟩]) :=
  ⟨by decide, increment_owner_gate 1 ⟨2, [0, 0, 0, 0, 0, 0, 0, 0]⟩ [] (by decide)⟩

/-- C6: a calculator payload shorter than 3 bytes returns success with no
computation (only the notice is logged). -/
theorem calc_short_payload (data : List Nat) (h : data.length < 3) :
    calcProcessInstruction data = .ok none := by
  match data with
  | [] => rfl
  | [_] => rfl
  | [_, _] => rfl
  | _ :: _ :: _ :: _ => simp at h; omega

theorem calc_short_payload_witness :
    ([0, 1] : List Nat).length < 3 ∧ calcProcessInstruction [0, 1] = .ok none :=
  ⟨by decide, calc_short_payload [0, 1] (by decide)⟩

/-- C4 counterexample: the claim says an operand byte of 128 or more denotes a
negative value, and that byte `0xFF` denotes `-1`. The code casts the `u8`
directly to `i64` (`as i64` zero-extends), so byte `255` denotes `255`:
adding it to `0` yields `255`, not `-1`. -/
theorem calc_operand_not_signed_cex :
    operandValue 255 = 255 ∧ operandValue 255 ≠ -1 ∧
    calcProcessInstruction [0, 255, 0] = .ok (some 255) ∧
    calcProcessInstruction [0, 255, 0] ≠ .ok (some (-1)) := by
  refine ⟨rfl, by decide, by decide, by decide⟩

/-- C4 amended: operand bytes are interpreted as unsigned single-byte integers
zero-extended to `i64`; an operand byte of 128 or more still denotes that
positive value (byte `0xFF` denotes `255`). -/
theorem calc_operand_zero_extend (l r : Nat) (rest : List Nat) (hl : 128 ≤ l) :
    calcProcessInstruction (0 :: l :: r :: rest) = .ok (some ((l : Int) + (r : Int)))
    ∧ operandValue l = (l : Int) ∧ 0 < operandValue l := by
  refine ⟨by simp [calcProcessInstruction, operandValue], rfl, ?_⟩
  simp only [operandValue]
  exact_mod_cast Nat.lt_of_lt_of_le (by norm_num) hl

theorem calc_operand_zero_extend_witness :
    128 ≤ 255 ∧
    (calcProcessInstruction [0, 255, 1] = .ok (some ((255 : Int) + (1 : Int)))
      ∧ operandValue 255 = ((255 : Nat) : Int) ∧ 0 < operandValue 255) :=
  ⟨by decide, calc_operand_zero_extend 255 1 [] (by decide)⟩

/-- C5 counterexample: the claim says the promotion to `i64` is wide enough to
avoid overflow for every defined opcode, including power for all byte
exponents; but `power(2, 64)` computes `2 ^ 64`, which exceeds `I64_MAX`, so
the `i64` computation `left.pow(right as u32)` overflows there. -/
theorem calc_power_overflow_cex :
    calcProcessInstruction [5, 2, 64] = .ok (some (2 ^ 64)) ∧
    ¬ ((2 ^ 64 : Int) ≤ I64_MAX) := by
  refine ⟨by decide, by decide⟩

/-- C5 amended: for opcodes 0 through 4 (add, subtract, multiply, divide,
modulus) on byte operands, with the stated failure conditions excluded, the
computed value always fits in `i64`, so the promotion avoids overflow; power
(opcode 5) is excluded because it can overflow (see the counterexample). -/
theorem calc_no_overflow_low_opcodes (op l r : Nat) (rest : List Nat) (v : Int)
    (hop : op ≤ 4) (hl : l < 256) (hr : r < 256)
    (hv : calcProcessInstruction (op :: l :: r :: rest) = .ok (some v)) :
    I64_MIN ≤ v ∧ v ≤ I64_MAX := by
  have hmin : I64_MIN = -(2 ^ 63) := rfl
  have hmax : I64_MAX = 2 ^ 63 - 1 := rfl
  interval_cases op
  · simp [calcProcessInstruction, operandValue] at hv
    omega
  · simp [calcProcessInstruction, operandValue] at hv
    omega
  · simp [calcProcessInstruction, operandValue] at hv
    have hmul : l * r ≤ 255 * 255 := Nat.mul_le_mul (by omega) (by omega)
    have hcast : v = ((l * r : Nat) : Int) := by
      rw [← hv]; push_cast; ring
    omega
  · by_cases hr0 : r = 0
    · simp [calcProcessInstruction, operandValue, hr0] at hv
    · simp [calcProcessInstruction, operandValue, hr0] at hv
      subst hv
      have heq : ((l / r : Nat) : Int) = (l : Int).tdiv r := Int.ofNat_tdiv l r
      have h0 : (0 : Int) ≤ (l : Int).tdiv r := by
        rw [← heq]; exact Int.natCast_nonneg _
      have h1 : (l : Int).tdiv r ≤ 255 := by
        rw [← heq]
        exact_mod_cast le_trans (Nat.div_le_self l r) (by omega)
      simp only [hmin, hmax]
      omega
  · by_cases hr0 : r = 0
    · simp [calcProcessInstruction, operandValue, hr0] at hv
    · simp [calcProcessInstruction, operandValue, hr0] at hv
      have hmod : l % r ≤ l := Nat.mod_le l r
      have hcast : v = ((l % r : Nat) : Int) := by
        rw [← hv, Int.ofNat_tmod]
      omega

theorem calc_no_overflow_low_opcodes_witness :
    (2 ≤ 4 ∧ 255 < 256 ∧ calcProcessInstruction [2, 255, 255] = .ok (some 65025)) ∧
    (I64_MIN ≤ (65025 : Int) ∧ (65025 : Int) ≤ I64_MAX) :=
  ⟨⟨by decide, by decide, by decide⟩,
   calc_no_overflow_low_opcodes 2 255 255 [] 65025 (by decide) (by decide) (by decide)
     (by decide)⟩

/-- C7: divide (opcode 3) and modulus (opcode 4) fail exactly when the right
operand is zero (the spec's `DivisionByZero`/`ModulusByZero`, the code's
`InvalidInstructionData`); with a nonzero right operand, divide computes the
integer quotient (truncation toward zero — the operands are nonnegative), and
in particular `divide(24, 6) = 4`. -/
theorem calc_div_mod (l r : Nat) (rest : List Nat) :
    (calcProcessInstruction (3 :: l :: r :: rest) = .error .InvalidInstructionData ↔ r = 0)
  ∧ (calcProcessInstruction (4 :: l :: r :: rest) = .error .InvalidInstructionData ↔ r = 0)
  ∧ (r ≠ 0 → calcProcessInstruction (3 :: l :: r :: rest) = .ok (some ((l / r : Nat) : Int)))
  ∧ calcProcessInstruction [3, 24, 6] = .ok (some 4) := by
  refine ⟨?_, ?_, ?_, by decide⟩
  · by_cases hr : r = 0 <;> simp [calcProcessInstruction, operandValue, hr]
  · by_cases hr : r = 0 <;> simp [calcProcessInstruction, operandValue, hr]
  · intro hr
    simp [calcProcessInstruction, operandValue, hr]
    exact Int.tdiv_eq_ediv (Int.natCast_nonneg l) (Int.natCast_nonneg r)

theorem calc_div_mod_witness :
    calcProcessInstruction [3, 24, 6] = .ok (some 4)
    ∧ ((6 : Nat) ≠ 0 ∧ calcProcessInstruction [3, 24, 6] = .ok (some ((24 / 6 : Nat) : Int)))
    ∧ calcProcessInstruction [4, 17, 0] = .error .InvalidInstructionData :=
  ⟨(calc_div_mod 24 6 []).2.2.2,
   ⟨by decide, (calc_div_mod 24 6 []).2.2.1 (by decide)⟩,
   ((calc_div_mod 17 0 []).2.1).mpr rfl⟩

/-- C8: an `Initialize` payload (tag 0) with fewer than 8 trailing bytes fails
to decode; `process_instruction` returns `InvalidInstructionData`, the account
list is untouched and no CPI is issued (no handler runs). -/
theorem initialize_truncated_payload (program_id : Nat) (accounts : List Account)
    (rest : List Nat) (invokeResult : Except ProgramError Unit) (h : rest.length < 8) :
    counter_process_instruction program_id accounts (0 :: rest) invokeResult
      = (.error .InvalidInstructionData, accounts, false) := by
  have hne : rest.length ≠ 8 := by omega
  simp [counter_process_instruction, CounterInstruction.try_from_slice, hne]

theorem initialize_truncated_payload_witness :
    ([1, 2, 3] : List Nat).length < 8 ∧
    counter_process_instruction 9 [] [0, 1, 2, 3] (.ok ())
      = (.error .InvalidInstructionData, [], false) :=
  ⟨by decide, initialize_truncated_payload 9 [] [1, 2, 3] (.ok ()) (by decide)⟩

/-- C9: an `Initialize` call with fewer than three accounts fails with
`NotEnoughAccountKeys` (the spec's `NotEnoughAccounts`) and no `create_account`
CPI is issued (the issued-CPI flag is `false`) and the accounts are
untouched. -/
theorem initialize_not_enough_accounts (program_id : Nat) (accounts : List Account)
    (initial_value : Nat) (invokeResult : Except ProgramError Unit)
    (h : accounts.length < 3) :
    process_initialize_counter program_id accounts initial_value invokeResult
      = (.error .NotEnoughAccountKeys, accounts, false) := by
  match accounts with
  | [] => rfl
  | [_] => rfl
  | [_, _] => rfl
  | _ :: _ :: _ :: _ => simp at h; omega

theorem initialize_not_enough_accounts_witness :
    ([⟨4, []⟩] : List Account).length < 3 ∧
    process_initialize_counter 4 [⟨4, []⟩] 42 (.ok ())
      = (.error .NotEnoughAccountKeys, [⟨4, []⟩], false) :=
  ⟨by decide, initialize_not_enough_accounts 4 [⟨4, []⟩] 42 (.ok ()) (by decide)⟩

/-- C10: any payload made of a valid instruction encoding followed by at least
one extra byte fails to decode (Borsh `try_from_slice` demands the whole
buffer be consumed), so `process_instruction` returns `InvalidInstructionData`
with the accounts untouched and no CPI issued. -/
theorem decoder_rejects_overlong (program_id : Nat) (accounts : List Account)
    (invokeResult : Except ProgramError Unit) (enc extra : List Nat)
    (i : CounterInstruction) (henc : CounterInstruction.try_from_slice enc = some i)
    (hextra : extra ≠ []) :
    counter_process_instruction program_id accounts (enc ++ extra) invokeResult
      = (.error .InvalidInstructionData, accounts, false) := by
  have hpos : 0 < extra.length := List.length_pos.mpr hextra
  match enc with
  | [] => simp [CounterInstruction.try_from_slice] at henc
  | tag :: restE =>
    by_cases h0 : tag = 0
    · subst h0
      have h8 : restE.length = 8 := by
        by_contra hne
        simp [CounterInstruction.try_from_slice, hne] at henc
      have hne8 : restE.length + extra.length ≠ 8 := by omega
      simp [counter_process_instruction, CounterInstruction.try_from_slice, hne8]
    · by_cases h1 : tag = 1
      · subst h1
        have hE : restE = [] := by
          by_contra hne
          simp [CounterInstruction.try_from_slice, List.isEmpty_iff, hne] at henc
        subst hE
        simp [counter_process_instruction, CounterInstruction.try_from_slice,
          List.isEmpty_iff, hextra]
      · simp [CounterInstruction.try_from_slice, h0, h1] at henc

theorem decoder_rejects_overlong_witness :
    CounterInstruction.try_from_slice [1] = some .IncrementCounter ∧
    ([0] : List Nat) ≠ [] ∧
    counter_process_instruction 5 [] ([1] ++ [0]) (.ok ())
      = (.error .InvalidInstructionData, [], false) :=
  ⟨rfl, by decide,
   decoder_rejects_overlong 5 [] (.ok ()) [1] [0] .IncrementCounter rfl (by decide)⟩
